import Mathlib

/-!
# Verification of the Containerized Webhook API core

Shallow embedding of the webhook receiver (`src/app/main.py`,
`src/app/storage.py`, `src/app/models.py`): HMAC-SHA256 signature
verification, payload validation, idempotent persistence keyed on
`message_id`, and the read-side query/aggregation endpoints.

Bytes are `Nat` values below 256, machine words are `Nat` reduced
modulo `2 ^ 32` where the source's fixed-width arithmetic wraps.
-/

namespace Webhook

/-! ## SHA-256 (as used by Python's `hashlib.sha256`) -/

/-- Reduce to a 32-bit word, the wrap-around of the source's word arithmetic. -/
def w32 (n : Nat) : Nat := n % 4294967296

/-- 32-bit right rotation. -/
def rotr (k n : Nat) : Nat := w32 ((n >>> k) ||| (n <<< (32 - k)))

/-- SHA-256 small sigma 0. -/
def ssig0 (x : Nat) : Nat := (rotr 7 x) ^^^ (rotr 18 x) ^^^ (x >>> 3)

/-- SHA-256 small sigma 1. -/
def ssig1 (x : Nat) : Nat := (rotr 17 x) ^^^ (rotr 19 x) ^^^ (x >>> 10)

/-- SHA-256 big sigma 0. -/
def bsig0 (x : Nat) : Nat := (rotr 2 x) ^^^ (rotr 13 x) ^^^ (rotr 22 x)

/-- SHA-256 big sigma 1. -/
def bsig1 (x : Nat) : Nat := (rotr 6 x) ^^^ (rotr 11 x) ^^^ (rotr 25 x)

/-- SHA-256 round constants. -/
def k256 : List Nat :=
  [1116352408, 1899447441, 3049323471, 3921009573, 961987163,
   1508970993, 2453635748, 2870763221, 3624381080, 310598401,
   607225278, 1426881987, 1925078388, 2162078206, 2614888103,
   3248222580, 3835390401, 4022224774, 264347078, 604807628,
   770255983, 1249150122, 1555081692, 1996064986, 2554220882,
   2821834349, 2952996808, 3210313671, 3336571891, 3584528711,
   113926993, 338241895, 666307205, 773529912, 1294757372,
   1396182291, 1695183700, 1986661051, 2177026350, 2456956037,
   2730485921, 2820302411, 3259730800, 3345764771, 3516065817,
   3600352804, 4094571909, 275423344, 430227734, 506948616,
   659060556, 883997877, 958139571, 1322822218, 1537002063,
   1747873779, 1955562222, 2024104815, 2227730452, 2361852424,
   2428436474, 2756734187, 3204031479, 3329325298]

/-- The eight 32-bit working registers of the SHA-256 state. -/
structure Hash8 where
  a : Nat
  b : Nat
  c : Nat
  d : Nat
  e : Nat
  f : Nat
  g : Nat
  h : Nat
deriving DecidableEq

/-- SHA-256 initial hash value. -/
def initH : Hash8 :=
  ⟨1779033703, 3144134277, 1013904242, 2773480762,
   1359893119, 2600822924, 528734635, 1541459225⟩

/-- Big-endian 4-byte decomposition of a 32-bit word. -/
def word32Bytes (w : Nat) : List Nat :=
  [w / 16777216 % 256, w / 65536 % 256, w / 256 % 256, w % 256]

/-- Big-endian 8-byte decomposition of a 64-bit length field. -/
def len64Bytes (n : Nat) : List Nat :=
  [n / 72057594037927936 % 256, n / 281474976710656 % 256,
   n / 1099511627776 % 256, n / 4294967296 % 256,
   n / 16777216 % 256, n / 65536 % 256, n / 256 % 256, n % 256]

/-- SHA-256 message padding: append `0x80`, zero bytes up to 56 mod 64,
then the bit length as a 64-bit big-endian integer. -/
def shaPad (msg : List Nat) : List Nat :=
  let z := (120 - (msg.length + 1) % 64) % 64
  msg ++ [128] ++ List.replicate z 0 ++ len64Bytes (8 * msg.length)

/-- Split a byte string into 64-byte blocks; the fuel argument (any bound on
the block count, here the byte count) keeps the recursion structural. -/
def blocks64Aux : Nat → List Nat → List (List Nat)
  | 0, _ => []
  | _ + 1, [] => []
  | fuel + 1, l => l.take 64 :: blocks64Aux fuel (l.drop 64)

/-- Split a byte string into 64-byte blocks. -/
def blocks64 (l : List Nat) : List (List Nat) := blocks64Aux l.length l

/-- The big-endian 32-bit word starting at byte offset `i` of a block. -/
def wordAt (block : List Nat) (i : Nat) : Nat :=
  block.getD i 0 * 16777216 + block.getD (i + 1) 0 * 65536 +
  block.getD (i + 2) 0 * 256 + block.getD (i + 3) 0

/-- The sixteen message words of a 64-byte block. -/
def blockWords (block : List Nat) : List Nat :=
  (List.range 16).map (fun i => wordAt block (4 * i))

/-- Extend sixteen message words to the 64-entry SHA-256 message schedule. -/
def schedule (ws : List Nat) : List Nat :=
  (List.range 48).foldl
    (fun w _ =>
      w ++ [w32 (ssig1 (w.getD (w.length - 2) 0) + w.getD (w.length - 7) 0 +
                 ssig0 (w.getD (w.length - 15) 0) + w.getD (w.length - 16) 0)])
    ws

/-- One SHA-256 compression round for message word `w` and constant `k`. -/
def round (st : Hash8) (kw : Nat × Nat) : Hash8 :=
  let t1 := w32 (st.h + bsig1 st.e + ((st.e &&& st.f) ^^^ ((2 ^ 32 - 1 - st.e) &&& st.g)) +
                 kw.1 + kw.2)
  let t2 := w32 (bsig0 st.a + ((st.a &&& st.b) ^^^ (st.a &&& st.c) ^^^ (st.b &&& st.c)))
  ⟨w32 (t1 + t2), st.a, st.b, st.c, w32 (st.d + t1), st.e, st.f, st.g⟩

/-- Process one 64-byte block: run 64 rounds and add into the chaining state. -/
def processBlock (st : Hash8) (block : List Nat) : Hash8 :=
  let t := (List.zip k256 (schedule (blockWords block))).foldl round st
  ⟨w32 (st.a + t.a), w32 (st.b + t.b), w32 (st.c + t.c), w32 (st.d + t.d),
   w32 (st.e + t.e), w32 (st.f + t.f), w32 (st.g + t.g), w32 (st.h + t.h)⟩

/-- Serialize the final state as the 32-byte big-endian digest. -/
def hashBytes (s : Hash8) : List Nat :=
  word32Bytes s.a ++ word32Bytes s.b ++ word32Bytes s.c ++ word32Bytes s.d ++
  word32Bytes s.e ++ word32Bytes s.f ++ word32Bytes s.g ++ word32Bytes s.h

/-- SHA-256 of a byte string. -/
def sha256 (msg : List Nat) : List Nat :=
  hashBytes ((blocks64 (shaPad msg)).foldl processBlock initH)

/-! ## HMAC-SHA256 and hex encoding (Python `hmac.new(...).hexdigest()`) -/

/-- Lowercase hexadecimal digit. -/
def hexDigit (n : Nat) : Char :=
  if n < 10 then Char.ofNat (48 + n) else Char.ofNat (87 + n)

/-- Two lowercase hex characters of one byte. -/
def byteHex (b : Nat) : List Char :=
  [hexDigit (b / 16 % 16), hexDigit (b % 16)]

/-- Lowercase hex encoding of a byte string, as `hexdigest()` produces. -/
def bytesToHex (bs : List Nat) : String :=
  ⟨bs.foldr (fun b acc => byteHex b ++ acc) []⟩

/-- HMAC-SHA256 with a 64-byte block size. -/
def hmacSha256 (key msg : List Nat) : List Nat :=
  let k0 := if 64 < key.length then sha256 key else key
  let kp := k0 ++ List.replicate (64 - k0.length) 0
  sha256 ((kp.map (fun b => b ^^^ 92)) ++ sha256 ((kp.map (fun b => b ^^^ 54)) ++ msg))

/-- UTF-8 encoding of one character (Python `str.encode("utf-8")`). -/
def utf8Bytes (c : Char) : List Nat :=
  let n := c.toNat
  if n < 128 then [n]
  else if n < 2048 then [192 + n / 64, 128 + n % 64]
  else if n < 65536 then [224 + n / 4096, 128 + n / 64 % 64, 128 + n % 64]
  else [240 + n / 262144, 128 + n / 4096 % 64, 128 + n / 64 % 64, 128 + n % 64]

/-- UTF-8 byte string of a Lean string. -/
def strBytes (s : String) : List Nat := s.data.foldr (fun c acc => utf8Bytes c ++ acc) []

/-- The value the handler compares against `X-Signature`:
`hmac.new(key=secret.encode("utf-8"), msg=raw_body, digestmod=sha256).hexdigest()`. -/
def hmacHex (secret : String) (rawBody : List Nat) : String :=
  bytesToHex (hmacSha256 (strBytes secret) rawBody)

/-! ## Signature verification (src/app/main.py `verify_hmac_signature`)

The dependency reads the `X-Signature` header; `if not signature_header`
rejects both a missing header and an empty one, then
`hmac.compare_digest(signature_header, expected_signature)` is an exact
(constant-time) string equality against the lowercase hex digest. -/

/-- Result of the HMAC dependency: the raw body on success, or the
401 `HTTPException` path. -/
inductive VerifyResult where
  | ok (rawBody : List Nat)
  | unauthorized
deriving DecidableEq

/-- `verify_hmac_signature` (src/app/main.py lines 58-118). -/
def verify_hmac_signature (secret : String) (xSignature : Option String)
    (rawBody : List Nat) : VerifyResult :=
  match xSignature with
  | none => .unauthorized
  | some s =>
      if s = "" then .unauthorized
      else if s = hmacHex secret rawBody then .ok rawBody
      else .unauthorized

/-! ## Payload validation (src/app/models.py `WebhookPayload`)

`E164_PATTERN = re.compile(r'^\+[1-9]\d\x7b1,14\x7d$')`, applied with
`.match`. Two Python `re` facts are modelled faithfully: `$` also matches
just before one trailing newline at the end of the string, and `\d` in a
str pattern matches every Unicode decimal digit (`Py_UNICODE_ISDECIMAL`,
category Nd) — `"+1٣٣"` matches — so the digit class is the full Nd
table, not only ASCII `0`-`9`. -/

/-- The code-point ranges of Unicode category Nd (decimal digits), the
character class of Python's `\d` in str patterns. -/
def ndRanges : List (Nat × Nat) :=
  [(48, 57), (1632, 1641), (1776, 1785), (1984, 1993),
   (2406, 2415), (2534, 2543), (2662, 2671), (2790, 2799),
   (2918, 2927), (3046, 3055), (3174, 3183), (3302, 3311),
   (3430, 3439), (3558, 3567), (3664, 3673), (3792, 3801),
   (3872, 3881), (4160, 4169), (4240, 4249), (6112, 6121),
   (6160, 6169), (6470, 6479), (6608, 6617), (6784, 6793),
   (6800, 6809), (6992, 7001), (7088, 7097), (7232, 7241),
   (7248, 7257), (42528, 42537), (43216, 43225), (43264, 43273),
   (43472, 43481), (43504, 43513), (43600, 43609), (44016, 44025),
   (65296, 65305), (66720, 66729), (68912, 68921), (69734, 69743),
   (69872, 69881), (69942, 69951), (70096, 70105), (70384, 70393),
   (70736, 70745), (70864, 70873), (71248, 71257), (71360, 71369),
   (71472, 71481), (71904, 71913), (72016, 72025), (72784, 72793),
   (73040, 73049), (73120, 73129), (92768, 92777), (92864, 92873),
   (93008, 93017), (120782, 120831), (123200, 123209), (123632, 123641),
   (125264, 125273), (130032, 130041)]

/-- Python's `\d`: membership in a Unicode Nd range. -/
def pyDigit (c : Char) : Bool :=
  ndRanges.any (fun r => decide (r.1 ≤ c.toNat) && decide (c.toNat ≤ r.2))

/-- Python `E164_PATTERN.match(v) is not None`, on the character list. The
1-to-14-digit run is necessarily maximal (the regex element after it, `$`,
cannot consume a digit), so it is the `takeWhile` of the digit class. -/
def e164MatchL : List Char → Bool
  | c0 :: c1 :: rest =>
      decide (c0 = '+') && decide ('1' ≤ c1) && decide (c1 ≤ '9') &&
      (let ds := rest.takeWhile pyDigit
       let tail := rest.dropWhile pyDigit
       decide (1 ≤ ds.length) && decide (ds.length ≤ 14) &&
       (decide (tail = []) || decide (tail = ['\n'])))
  | _ => false

/-- Python `E164_PATTERN.match(v) is not None`. -/
def e164Match (v : String) : Bool := e164MatchL v.data

/-- The decoded JSON body as its fields reach the Pydantic model: the wire
names `from`/`to` are aliased to `from_msisdn`/`to_msisdn`
(`populate_by_name`); a field is `none` when absent from the object (for
`text`, also when JSON `null`). -/
structure RawPayload where
  message_id : Option String
  from_msisdn : Option String
  to_msisdn : Option String
  ts : Option String
  text : Option String
deriving DecidableEq

/-- A payload accepted by `WebhookPayload`: the four required string
fields plus the optional bounded `text`. -/
structure WebhookPayload where
  message_id : String
  from_msisdn : String
  to_msisdn : String
  ts : String
  text : Option String
deriving DecidableEq

/-- Pydantic validation of `WebhookPayload`: the four `Field(...)` entries
are required, `text` defaults to `None` with `max_length=4096`, and the
two `field_validator`s apply `E164_PATTERN.match`. `some p` is the
validated model, `none` the `ValidationError` (HTTP 422) path. -/
def validatePayload (rp : RawPayload) : Option WebhookPayload :=
  match rp.message_id, rp.from_msisdn, rp.to_msisdn, rp.ts with
  | some mid, some f, some t, some ts =>
      if e164Match f && e164Match t &&
         (match rp.text with
          | some tx => decide (tx.length ≤ 4096)
          | none => true) then
        some ⟨mid, f, t, ts, rp.text⟩
      else none
  | _, _, _, _ => none

/-! ## Storage (src/app/storage.py) -/

/-- A row of the `messages` table (class `Message`): `message_id` is the
primary key, `created_at` is assigned by `save_message` at insert time. -/
structure Message where
  message_id : String
  from_msisdn : String
  to_msisdn : String
  ts : String
  text : Option String
  created_at : String
deriving DecidableEq

/-- The primary-key column of a store state. -/
def idsOf (store : List Message) : List String := store.map (·.message_id)

/-- The row `save_message` builds from the payload dict, with
`created_at=datetime.now(timezone.utc).isoformat()` taken as `now`. -/
def mkMessage (p : WebhookPayload) (now : String) : Message :=
  ⟨p.message_id, p.from_msisdn, p.to_msisdn, p.ts, p.text, now⟩

/-! ## Webhook ingestion (src/app/main.py `receive_webhook`) -/

/-- The per-request classification the handler logs and counts. -/
inductive Outcome where
  | created
  | duplicate
  | unauthenticated
  | validationError
  | parseError
deriving DecidableEq

/-- Response body shape: both success branches return the same
`JSONResponse(status_code=200, content=\x7b"status": "ok"\x7d)`; error
paths return a detail object instead. -/
inductive RespBody where
  | ok
  | err
deriving DecidableEq

/-- HTTP status, body and server-side outcome of one request. -/
structure HandlerResult where
  status : Nat
  body : RespBody
  outcome : Outcome
deriving DecidableEq

/-- The `try`/`except IntegrityError` body of `receive_webhook` (lines
213-263): `save_message` flushes an INSERT whose primary-key constraint
rejects exactly the `message_id`s already stored, so the `IntegrityError`
branch fires iff `p.message_id` is present; that branch rolls the session
back (store unchanged) and both branches answer
`200 \x7b"status": "ok"\x7d`. -/
def receive_webhook (store : List Message) (now : String) (p : WebhookPayload) :
    HandlerResult × List Message :=
  if p.message_id ∈ idsOf store then
    (⟨200, .ok, .duplicate⟩, store)
  else
    (⟨200, .ok, .created⟩, store ++ [mkMessage p now])

/-- One inbound `POST /webhook` request: the `X-Signature` header, the raw
body bytes, and the result of `json.loads` on those bytes (`none` when the
body is not valid JSON; fields of the decoded object in `RawPayload`). -/
structure Request where
  xSignature : Option String
  rawBody : List Nat
  jsonBody : Option RawPayload
deriving DecidableEq

/-- The decoded object with every field absent (used when the body is
empty: FastAPI passes `body=None` to validation). -/
def emptyRaw : RawPayload := ⟨none, none, none, none, none⟩

/-- The full `POST /webhook` request pipeline. FastAPI's request handler
(fastapi/routing.py `get_request_handler`) JSON-parses a non-empty body
*before* solving dependencies, turning a `json.JSONDecodeError` into a 422
`RequestValidationError`; then the endpoint's dependencies run — here
`verify_hmac_signature`, whose `HTTPException` ends the request with 401 —
and only then is the parsed body validated against `WebhookPayload`
(`request_body_to_args`), after which the endpoint body executes. -/
def handleWebhook (secret : String) (now : String) (store : List Message)
    (req : Request) : HandlerResult × List Message :=
  if req.rawBody ≠ [] ∧ req.jsonBody = none then
    (⟨422, .err, .parseError⟩, store)
  else
    match verify_hmac_signature secret req.xSignature req.rawBody with
    | .unauthorized => (⟨401, .err, .unauthenticated⟩, store)
    | .ok _ =>
        match validatePayload
            (if req.rawBody = [] then emptyRaw else req.jsonBody.getD emptyRaw) with
        | none => (⟨422, .err, .validationError⟩, store)
        | some p => receive_webhook store now p

/-- Run a sequence of webhook deliveries; each element pairs the server
clock value at that request (the `created_at` source) with the request. -/
def runWebhooks (secret : String) (store : List Message) :
    List (String × Request) → List HandlerResult × List Message
  | [] => ([], store)
  | r :: rest =>
      ((handleWebhook secret r.1 store r.2).1 ::
         (runWebhooks secret (handleWebhook secret r.1 store r.2).2 rest).1,
       (runWebhooks secret (handleWebhook secret r.1 store r.2).2 rest).2)

/-! ## The database's string order

SQLite compares TEXT values with the BINARY collation: byte order of the
UTF-8 encodings, which coincides with code-point lexicographic order.
`charListLeB` is that order on the decoded character lists. -/

/-- Code-point lexicographic `≤` on character lists (SQLite BINARY). -/
def charListLeB : List Char → List Char → Bool
  | [], _ => true
  | _ :: _, [] => false
  | a :: as, b :: bs =>
      decide (a.toNat < b.toNat) ||
      (decide (a.toNat = b.toNat) && charListLeB as bs)

/-- The string comparison the database applies to `ts` and `message_id`. -/
def strLe (a b : String) : Prop := charListLeB a.data b.data = true

instance : DecidableRel strLe := fun a b => by
  unfold strLe
  infer_instance

theorem char_toNat_inj {a b : Char} (h : a.toNat = b.toNat) : a = b := by
  apply Char.ext
  exact UInt32.ext h

theorem charListLeB_refl (l : List Char) : charListLeB l l = true := by
  induction l with
  | nil => rfl
  | cons a as ih => simp [charListLeB, ih]

theorem charListLeB_total (l1 l2 : List Char) :
    charListLeB l1 l2 = true ∨ charListLeB l2 l1 = true := by
  induction l1 generalizing l2 with
  | nil => exact Or.inl rfl
  | cons a as ih =>
      cases l2 with
      | nil => exact Or.inr rfl
      | cons b bs =>
          rcases Nat.lt_trichotomy a.toNat b.toNat with h | h | h
          · left
            simp [charListLeB, h]
          · rcases ih bs with h2 | h2
            · left
              simp [charListLeB, h, h2]
            · right
              simp [charListLeB, h.symm, h2]
          · right
            simp [charListLeB, h]

theorem charListLeB_trans {l1 l2 l3 : List Char}
    (h12 : charListLeB l1 l2 = true) (h23 : charListLeB l2 l3 = true) :
    charListLeB l1 l3 = true := by
  induction l1 generalizing l2 l3 with
  | nil => rfl
  | cons a as ih =>
      cases l2 with
      | nil => exact absurd h12 (by simp [charListLeB])
      | cons b bs =>
          cases l3 with
          | nil => exact absurd h23 (by simp [charListLeB])
          | cons c cs =>
              simp only [charListLeB, Bool.or_eq_true, Bool.and_eq_true,
                decide_eq_true_eq] at h12 h23 ⊢
              rcases h12 with h12 | ⟨hab, h12⟩
              · rcases h23 with h23 | ⟨hbc, h23⟩
                · exact Or.inl (by omega)
                · exact Or.inl (by omega)
              · rcases h23 with h23 | ⟨hbc, h23⟩
                · exact Or.inl (by omega)
                · exact Or.inr ⟨by omega, ih h12 h23⟩

theorem charListLeB_antisymm {l1 l2 : List Char}
    (h12 : charListLeB l1 l2 = true) (h21 : charListLeB l2 l1 = true) :
    l1 = l2 := by
  induction l1 generalizing l2 with
  | nil =>
      cases l2 with
      | nil => rfl
      | cons b bs => exact absurd h21 (by simp [charListLeB])
  | cons a as ih =>
      cases l2 with
      | nil => exact absurd h12 (by simp [charListLeB])
      | cons b bs =>
          simp only [charListLeB, Bool.or_eq_true, Bool.and_eq_true,
            decide_eq_true_eq] at h12 h21
          rcases h12 with h12 | ⟨hab, h12⟩
          · rcases h21 with h21 | ⟨hba, h21⟩
            · exact absurd h21 (by omega)
            · exact absurd h12 (by omega)
          · rcases h21 with h21 | ⟨hba, h21⟩
            · exact absurd h21 (by omega)
            · rw [char_toNat_inj hab, ih h12 h21]

theorem strLe_refl (a : String) : strLe a a := charListLeB_refl a.data

theorem strLe_total (a b : String) : strLe a b ∨ strLe b a :=
  charListLeB_total a.data b.data

theorem strLe_trans {a b c : String} (h1 : strLe a b) (h2 : strLe b c) :
    strLe a c := charListLeB_trans h1 h2

theorem strLe_antisymm {a b : String} (h1 : strLe a b) (h2 : strLe b a) :
    a = b := by
  have hd : a.data = b.data := charListLeB_antisymm h1 h2
  cases a
  cases b
  simp only at hd
  rw [hd]

instance : IsTotal String strLe := ⟨strLe_total⟩

instance : IsTrans String strLe := ⟨fun _ _ _ => strLe_trans⟩

instance : IsRefl String strLe := ⟨strLe_refl⟩

instance : IsTotal String (fun a b => strLe b a) := ⟨fun a b => strLe_total b a⟩

instance : IsTrans String (fun a b => strLe b a) :=
  ⟨fun _ _ _ h1 h2 => strLe_trans h2 h1⟩

instance : IsRefl String (fun a b => strLe b a) := ⟨fun a => strLe_refl a⟩

/-! ## GET /messages (src/app/main.py `get_messages`)

The endpoint issues one filtered `SELECT COUNT(...)` and one filtered,
ordered, paginated `SELECT`, over SQLite (the configured
`sqlite+aiosqlite` database): string comparison is byte order of UTF-8
text — code-point order on Lean strings — and `ilike` lowers both sides
with SQLite's ASCII-only `lower()` before a `LIKE` match. -/

/-- SQL `LIKE` pattern matching: `%` matches any run, `_` one character,
anything else itself. The fuel argument (strictly more than the summed
lengths, which every recursive call decreases) keeps the recursion
structural; with the fuel `likeM` supplies, the `0` case is unreachable. -/
def likeFuel : Nat → List Char → List Char → Bool
  | 0, _, _ => false
  | _ + 1, [], [] => true
  | _ + 1, [], _ :: _ => false
  | f + 1, '%' :: ps, [] => likeFuel f ps []
  | f + 1, '%' :: ps, c :: ts => likeFuel f ps (c :: ts) || likeFuel f ('%' :: ps) ts
  | _ + 1, '_' :: _, [] => false
  | f + 1, '_' :: ps, _ :: ts => likeFuel f ps ts
  | _ + 1, _ :: _, [] => false
  | f + 1, p :: ps, c :: ts => decide (p = c) && likeFuel f ps ts

/-- SQL `LIKE` on a whole pattern and text. -/
def likeM (p t : List Char) : Bool := likeFuel (p.length + t.length + 1) p t

/-- SQLite `lower()`: ASCII-only lowering. -/
def lowerStr (s : String) : String := ⟨s.data.map Char.toLower⟩

/-- `Message.text.ilike(f"%\x7bq\x7d%")` on one row: a SQL `NULL` text never
satisfies a `LIKE` predicate; otherwise case-insensitive `LIKE` against
the unescaped pattern `%q%` (so `%`/`_` inside `q` act as wildcards). -/
def textIlike (q : String) : Option String → Bool
  | none => false
  | some t => likeM ('%' :: (lowerStr q).data ++ ['%']) (lowerStr t).data

/-- Python truthiness of an `Optional[str]`: `if x:` is false for `None`
and for the empty string. -/
def pyTruthy : Option String → Bool
  | none => false
  | some s => decide (s ≠ "")

/-- The `filters` list built by `get_messages` (lines 314-325), in source
order: exact `from_msisdn` match, `ts >= since`, `text ILIKE %q%`; each is
appended only when the parameter is truthy. -/
def whereFilters (fromF since q : Option String) : List (Message → Bool) :=
  (if pyTruthy fromF then [fun m => decide (m.from_msisdn = fromF.getD "")] else []) ++
  (if pyTruthy since then [fun m => decide (strLe (since.getD "") m.ts)] else []) ++
  (if pyTruthy q then [fun m => textIlike (q.getD "") m.text] else [])

/-- `and_(*filters)` applied to one row. -/
def matchesAll (fs : List (Message → Bool)) (m : Message) : Bool :=
  fs.all (fun f => f m)

/-- The `ORDER BY ts ASC, message_id ASC` relation. -/
def keyLe (a b : Message) : Prop :=
  (a.ts = b.ts ∧ strLe a.message_id b.message_id) ∨
  (a.ts ≠ b.ts ∧ strLe a.ts b.ts)

instance : DecidableRel keyLe := fun a b => by
  unfold keyLe; infer_instance

/-- `get_messages` (lines 285-351): a `COUNT` of the filtered set and the
filtered rows ordered by `ts ASC, message_id ASC`, offset then limited.
The response rows (`MessageResponse`) carry exactly the `Message`
columns. -/
def get_messages (store : List Message) (lim off : Nat)
    (fromF since q : Option String) : List Message × Nat :=
  let fs := whereFilters fromF since q
  let total := store.countP (matchesAll fs)
  let rows := ((store.filter (matchesAll fs)).insertionSort
      (fun a b => keyLe a b)).drop off |>.take lim
  (rows, total)

/-! ## GET /stats (src/app/main.py `get_stats`)

The four scalar aggregates are deterministic SQL; the
`messages_per_sender` query orders by `COUNT(*) DESC` with *no* secondary
sort key, so relational semantics leaves the relative order of
equal-count senders unspecified — it is modelled as a relation between
the store and the admissible result lists. -/

/-- The distinct senders, in first-appearance order (`GROUP BY` keys). -/
def distinctSenders (store : List Message) : List String :=
  (store.map (·.from_msisdn)).dedup

/-- The `GROUP BY from_msisdn` rows `(from_msisdn, COUNT(message_id))`. -/
def senderCounts (store : List Message) : List (String × Nat) :=
  (distinctSenders store).map
    (fun s => (s, store.countP (fun m => decide (m.from_msisdn = s))))

/-- Admissible values of the `messages_per_sender` query: any arrangement
of the group rows that is non-increasing in the count, truncated by
`LIMIT 10`. -/
def topSendersAdmissible (store : List Message) (r : List (String × Nat)) : Prop :=
  ∃ full : List (String × Nat), List.Perm full (senderCounts store) ∧
    List.Sorted (fun a b => b.2 ≤ a.2) full ∧ r = full.take 10

/-- The deterministic part of the `/stats` response. -/
structure StatsScalars where
  total_messages : Nat
  senders_count : Nat
  first_message_ts : Option String
  last_message_ts : Option String
deriving DecidableEq

/-- The four scalar queries of `get_stats` (lines 374-410):
`COUNT(message_id)`, `COUNT(DISTINCT from_msisdn)`, and the two
`ORDER BY ts ASC|DESC LIMIT 1` selections (`scalar()` is `None` on an
empty result). -/
def get_stats_scalars (store : List Message) : StatsScalars :=
  { total_messages := store.length
    senders_count := (distinctSenders store).length
    first_message_ts := ((store.map (·.ts)).insertionSort strLe).head?
    last_message_ts :=
      ((store.map (·.ts)).insertionSort (fun a b => strLe b a)).head? }

/-! ## The API as a transition system (for the immutability invariant) -/

/-- One inbound API request of the service's three data endpoints. -/
inductive ApiRequest where
  | webhook (now : String) (req : Request)
  | messages (lim off : Nat) (fromF since q : Option String)
  | stats
deriving DecidableEq

/-- The store state after serving one request: `POST /webhook` is the only
endpoint that issues a write; `get_messages` and `get_stats` run only
`SELECT` statements and the service defines no `UPDATE` or `DELETE`. -/
def apiStep (secret : String) (store : List Message) : ApiRequest → List Message
  | .webhook now req => (handleWebhook secret now store req).2
  | .messages _ _ _ _ _ => store
  | .stats => store

/-! ## Helper lemmas -/

theorem sha256_length (msg : List Nat) : (sha256 msg).length = 32 := by
  simp [sha256, hashBytes, word32Bytes]

theorem foldr_byteHex_length (bs : List Nat) :
    (bs.foldr (fun b acc => byteHex b ++ acc) []).length = 2 * bs.length := by
  induction bs with
  | nil => rfl
  | cons b t ih =>
      show (byteHex b ++ t.foldr (fun b acc => byteHex b ++ acc) []).length = 2 * (t.length + 1)
      rw [List.length_append, ih]
      simp [byteHex]
      omega

theorem hmacHex_length (secret : String) (body : List Nat) :
    (hmacHex secret body).length = 64 := by
  have h32 : (hmacSha256 (strBytes secret) body).length = 32 := by
    unfold hmacSha256
    exact sha256_length _
  calc (hmacHex secret body).length
      = (List.foldr (fun b acc => byteHex b ++ acc) []
          (hmacSha256 (strBytes secret) body)).length := rfl
    _ = 2 * 32 := by rw [foldr_byteHex_length, h32]

theorem hmacHex_ne_empty (secret : String) (body : List Nat) :
    hmacHex secret body ≠ "" := by
  intro h
  have := hmacHex_length secret body
  rw [h] at this
  simp [String.length] at this

theorem verify_valid (secret : String) (body : List Nat) :
    verify_hmac_signature secret (some (hmacHex secret body)) body = .ok body := by
  show (if hmacHex secret body = "" then VerifyResult.unauthorized
        else if hmacHex secret body = hmacHex secret body then VerifyResult.ok body
        else VerifyResult.unauthorized) = VerifyResult.ok body
  rw [if_neg (hmacHex_ne_empty secret body), if_pos rfl]

theorem verify_invalid (secret : String) (h : Option String) (body : List Nat)
    (hne : h ≠ some (hmacHex secret body)) :
    verify_hmac_signature secret h body = .unauthorized := by
  cases h with
  | none => rfl
  | some s =>
      show (if s = "" then VerifyResult.unauthorized
            else if s = hmacHex secret body then VerifyResult.ok body
            else VerifyResult.unauthorized) = VerifyResult.unauthorized
      by_cases he : s = ""
      · rw [if_pos he]
      · rw [if_neg he, if_neg (fun hd => hne (by rw [hd]))]

/-! ## C3 and C10: the signature check -/

/-- C3: `POST /webhook` signature verification succeeds if and only if the
`X-Signature` value equals the hex-encoded HMAC-SHA256 of the raw request
body under the configured secret; a missing header or a failed comparison
takes the `Unauthenticated` path, and a request with an empty or
JSON-well-formed body but missing/wrong signature is answered with
HTTP 401. -/
theorem signature_verification_iff (secret : String) (h : Option String)
    (body : List Nat) :
    (verify_hmac_signature secret h body = .ok body ↔
       h = some (hmacHex secret body)) ∧
    (h ≠ some (hmacHex secret body) →
       verify_hmac_signature secret h body = .unauthorized) ∧
    (∀ now store jb, (body = [] ∨ jb ≠ none) →
       h ≠ some (hmacHex secret body) →
       handleWebhook secret now store ⟨h, body, jb⟩ =
         (⟨401, .err, .unauthenticated⟩, store)) := by
  refine ⟨⟨?_, ?_⟩, fun hne => verify_invalid secret h body hne, ?_⟩
  · intro hok
    by_contra hne
    rw [verify_invalid secret h body hne] at hok
    exact VerifyResult.noConfusion hok
  · intro he
    subst he
    exact verify_valid secret body
  · intro now store jb hb hne
    have hguard : ¬(body ≠ [] ∧ jb = none) := by
      rcases hb with hb | hb
      · exact fun hc => hc.1 hb
      · exact fun hc => hb hc.2
    simp only [handleWebhook]
    rw [if_neg hguard, verify_invalid secret h body hne]

/-- Witness for C3 at a concrete secret, body and correct signature. -/
theorem signature_verification_iff_witness :
    verify_hmac_signature "testsecret" (some (hmacHex "testsecret" (strBytes "x")))
      (strBytes "x") = .ok (strBytes "x") :=
  (signature_verification_iff "testsecret"
    (some (hmacHex "testsecret" (strBytes "x"))) (strBytes "x")).1.mpr rfl

set_option maxRecDepth 40000 in
/-- C10: the comparison is an exact, case-sensitive string equality against
the lowercase hex digest: the request signed with the correct digest written
in uppercase hex is rejected as unauthorized even though its ASCII
lowercasing is exactly the expected digest. -/
theorem signature_case_sensitive :
    hmacHex "s3cr3t" (strBytes "hello") =
      "6b23653f08c72072554e5dfef9b72efe01fcfe724a950689e991e7bd7089eb3e" ∧
    lowerStr "6B23653F08C72072554E5DFEF9B72EFE01FCFE724A950689E991E7BD7089EB3E" =
      "6b23653f08c72072554e5dfef9b72efe01fcfe724a950689e991e7bd7089eb3e" ∧
    verify_hmac_signature "s3cr3t"
      (some "6B23653F08C72072554E5DFEF9B72EFE01FCFE724A950689E991E7BD7089EB3E")
      (strBytes "hello") = .unauthorized := by
  have hd : hmacHex "s3cr3t" (strBytes "hello") =
      "6b23653f08c72072554e5dfef9b72efe01fcfe724a950689e991e7bd7089eb3e" := by
    decide
  refine ⟨hd, by decide, ?_⟩
  refine verify_invalid _ _ _ ?_
  rw [hd]
  decide

/-! ## C2: duplicate inserts are reclassified, not surfaced -/

/-- C2: when the insert hits the `message_id` primary-key constraint (the
`IntegrityError` branch), the handler rolls the transaction back (store
unchanged), classifies the outcome as Duplicate, and answers HTTP 200 with
a body identical to the Created case, so the caller cannot distinguish
first delivery from retry. -/
theorem duplicate_reclassified (store : List Message) (now : String)
    (p : WebhookPayload) (hdup : p.message_id ∈ idsOf store) :
    (receive_webhook store now p).1 = ⟨200, .ok, .duplicate⟩ ∧
    (receive_webhook store now p).2 = store ∧
    ∀ store2 now2 p2, p2.message_id ∉ idsOf store2 →
      (receive_webhook store2 now2 p2).1.status = (receive_webhook store now p).1.status ∧
      (receive_webhook store2 now2 p2).1.body = (receive_webhook store now p).1.body := by
  have h1 : receive_webhook store now p = (⟨200, .ok, .duplicate⟩, store) := by
    unfold receive_webhook
    rw [if_pos hdup]
  refine ⟨by rw [h1], by rw [h1], ?_⟩
  intro store2 now2 p2 hfresh
  have h2 : receive_webhook store2 now2 p2 =
      (⟨200, .ok, .created⟩, store2 ++ [mkMessage p2 now2]) := by
    unfold receive_webhook
    rw [if_neg hfresh]
  rw [h1, h2]
  exact ⟨rfl, rfl⟩

/-- A stored row used by several witnesses. -/
def wMsg : Message :=
  ⟨"m1", "+14155552671", "+14155552672", "2025-01-01T00:00:00Z", some "hi",
   "2025-01-01T00:00:05Z"⟩

/-- A payload that retries `wMsg`'s message id with different fields. -/
def wPayload : WebhookPayload :=
  ⟨"m1", "+14155552671", "+14155552672", "2025-01-02T00:00:00Z", some "retry"⟩

/-- Witness for C2: a concrete retry of an already-stored id leaves the
store unchanged. -/
theorem duplicate_reclassified_witness :
    ("m1" ∈ idsOf [wMsg]) ∧ (receive_webhook [wMsg] "t" wPayload).2 = [wMsg] :=
  ⟨by decide, (duplicate_reclassified [wMsg] "t" wPayload (by decide)).2.1⟩

/-! ## C9: the store is append-only -/

/-- C9: no operation of the service ever updates or deletes a stored
record: every API request either appends exactly one new record whose
`message_id` was not present (the Created outcome) or leaves the store —
every existing record and all its fields — exactly unchanged. -/
theorem store_append_only (secret : String) (store : List Message)
    (a : ApiRequest) :
    apiStep secret store a = store ∨
    ∃ msg, apiStep secret store a = store ++ [msg] ∧
      msg.message_id ∉ idsOf store := by
  cases a with
  | messages lim off f s q => exact Or.inl rfl
  | stats => exact Or.inl rfl
  | webhook now req =>
      have hdef : apiStep secret store (ApiRequest.webhook now req) =
          (handleWebhook secret now store req).2 := rfl
      rw [hdef]
      unfold handleWebhook
      split
      · exact Or.inl rfl
      · split
        · exact Or.inl rfl
        · split
          · exact Or.inl rfl
          · rename_i p heq
            unfold receive_webhook
            split
            · exact Or.inl rfl
            · rename_i hmem
              exact Or.inr ⟨mkMessage p now, rfl, hmem⟩

/-! ## C1: idempotence of the write path -/

/-- A well-signed, well-formed webhook delivery carrying message id `mid`:
non-empty raw body, `X-Signature` equal to the body's HMAC digest, and a
JSON body whose fields pass `WebhookPayload` validation with this id. -/
def goodReq (secret mid : String) (r : String × Request) : Prop :=
  r.2.rawBody ≠ [] ∧
  r.2.xSignature = some (hmacHex secret r.2.rawBody) ∧
  ∃ rp p, r.2.jsonBody = some rp ∧ validatePayload rp = some p ∧
    p.message_id = mid

theorem handle_good (secret now : String) (store : List Message)
    (req : Request) (rp : RawPayload) (p : WebhookPayload)
    (hne : req.rawBody ≠ [])
    (hsig : req.xSignature = some (hmacHex secret req.rawBody))
    (hjb : req.jsonBody = some rp) (hval : validatePayload rp = some p) :
    handleWebhook secret now store req = receive_webhook store now p := by
  unfold handleWebhook
  rw [if_neg (fun hc => by rw [hjb] at hc; exact Option.noConfusion hc.2)]
  rw [hsig, verify_valid]
  rw [if_neg hne, hjb, Option.getD_some, hval]

theorem run_length (secret : String) :
    ∀ (reqs : List (String × Request)) (store : List Message),
      ((runWebhooks secret store reqs).1).length = reqs.length := by
  intro reqs
  induction reqs with
  | nil => intro store; rfl
  | cons r rest ih =>
      intro store
      simp only [runWebhooks, List.length_cons]
      rw [ih]

theorem run_all_dup (secret mid : String) :
    ∀ (reqs : List (String × Request)) (store : List Message),
      mid ∈ idsOf store →
      (∀ r ∈ reqs, goodReq secret mid r) →
      (runWebhooks secret store reqs).2 = store ∧
      ∀ res ∈ (runWebhooks secret store reqs).1,
        res = ⟨200, .ok, .duplicate⟩ := by
  intro reqs
  induction reqs with
  | nil =>
      intro store hmem hall
      exact ⟨rfl, fun res h => absurd h (List.not_mem_nil res)⟩
  | cons r rest ih =>
      intro store hmem hall
      obtain ⟨hne, hsig, rp, p, hjb, hval, hmid⟩ := hall r (List.mem_cons_self r rest)
      have hstep : handleWebhook secret r.1 store r.2 =
          (⟨200, .ok, .duplicate⟩, store) := by
        rw [handle_good secret r.1 store r.2 rp p hne hsig hjb hval]
        unfold receive_webhook
        rw [if_pos (by rw [hmid]; exact hmem)]
      have ihr := ih store hmem (fun x hx => hall x (List.mem_cons_of_mem r hx))
      constructor
      · show (runWebhooks secret store (r :: rest)).2 = store
        simp only [runWebhooks, hstep]
        exact ihr.1
      · intro res hres
        simp only [runWebhooks, hstep] at hres
        rcases List.mem_cons.mp hres with h | h
        · exact h
        · exact ihr.2 res h

/-- C1: a sequence of N ≥ 1 validly signed, well-formed submissions all
carrying the same fresh `message_id` produces exactly one Created outcome
and N−1 Duplicate outcomes, and afterwards the store holds exactly one
record for that id, whose `from_msisdn`, `to_msisdn`, `ts`, `text` and
`created_at` come from the first (successful) submission. -/
theorem webhook_idempotent (secret mid : String) (store0 : List Message)
    (r0 : String × Request) (rest : List (String × Request))
    (hfresh : mid ∉ idsOf store0)
    (h0 : goodReq secret mid r0)
    (hrest : ∀ r ∈ rest, goodReq secret mid r) :
    ∃ rp0 p0, r0.2.jsonBody = some rp0 ∧ validatePayload rp0 = some p0 ∧
      ((runWebhooks secret store0 (r0 :: rest)).1.countP
          (fun res => decide (res.outcome = .created))) = 1 ∧
      ((runWebhooks secret store0 (r0 :: rest)).1.countP
          (fun res => decide (res.outcome = .duplicate))) = rest.length ∧
      (runWebhooks secret store0 (r0 :: rest)).2 =
        store0 ++ [mkMessage p0 r0.1] ∧
      ((runWebhooks secret store0 (r0 :: rest)).2.filter
          (fun m => decide (m.message_id = mid))) = [mkMessage p0 r0.1] := by
  obtain ⟨hne, hsig, rp0, p0, hjb, hval, hmid⟩ := h0
  have hstep : handleWebhook secret r0.1 store0 r0.2 =
      (⟨200, .ok, .created⟩, store0 ++ [mkMessage p0 r0.1]) := by
    rw [handle_good secret r0.1 store0 r0.2 rp0 p0 hne hsig hjb hval]
    unfold receive_webhook
    rw [if_neg (by rw [hmid]; exact hfresh)]
  have hmem1 : mid ∈ idsOf (store0 ++ [mkMessage p0 r0.1]) := by
    unfold idsOf mkMessage
    rw [List.map_append, List.mem_append]
    exact Or.inr (by rw [← hmid]; exact List.mem_singleton.mpr rfl)
  have hdups := run_all_dup secret mid rest (store0 ++ [mkMessage p0 r0.1]) hmem1 hrest
  have hcnt0 : ((runWebhooks secret (store0 ++ [mkMessage p0 r0.1]) rest).1.countP
      (fun res => decide (res.outcome = .created))) = 0 := by
    rw [List.countP_eq_zero]
    intro res hres
    rw [hdups.2 res hres]
    decide
  have hcntd : ((runWebhooks secret (store0 ++ [mkMessage p0 r0.1]) rest).1.countP
      (fun res => decide (res.outcome = .duplicate))) =
      rest.length := by
    rw [List.countP_eq_length.mpr, run_length]
    intro res hres
    rw [hdups.2 res hres]
    decide
  refine ⟨rp0, p0, hjb, hval, ?_, ?_, ?_, ?_⟩
  · simp only [runWebhooks, hstep, List.countP_cons]
    rw [hcnt0]
    decide
  · simp only [runWebhooks, hstep, List.countP_cons]
    rw [hcntd]
    simp
  · simp only [runWebhooks, hstep]
    exact hdups.1
  · simp only [runWebhooks, hstep]
    rw [hdups.1, List.filter_append]
    have hl : store0.filter (fun m => decide (m.message_id = mid)) = [] := by
      rw [List.filter_eq_nil_iff]
      intro m hm hdec
      exact hfresh (by
        rw [← of_decide_eq_true hdec]
        exact List.mem_map_of_mem (fun x => x.message_id) hm)
    have hr : ([mkMessage p0 r0.1].filter
        (fun m => decide (m.message_id = mid))) = [mkMessage p0 r0.1] := by
      rw [List.filter_eq_self]
      intro m hm
      rw [List.mem_singleton.mp hm]
      exact decide_eq_true (by unfold mkMessage; exact hmid)
    rw [hl, hr, List.nil_append]

/-- Decoded body used by the C1 witness. -/
def wRaw : RawPayload :=
  ⟨some "m1", some "+14155552671", some "+14155552672",
   some "2025-01-01T00:00:00Z", some "hi"⟩

/-- The payload `wRaw` validates to. -/
def wP : WebhookPayload :=
  ⟨"m1", "+14155552671", "+14155552672", "2025-01-01T00:00:00Z", some "hi"⟩

/-- A correctly signed request delivering `wRaw`. -/
def wReq : Request :=
  ⟨some (hmacHex "testsecret" (strBytes "b1")), strBytes "b1", some wRaw⟩

/-- Witness for C1: two identical deliveries of a fresh id yield exactly
one Created outcome. -/
theorem webhook_idempotent_witness :
    ((runWebhooks "testsecret" [] [("t1", wReq), ("t2", wReq)]).1.countP
        (fun res => decide (res.outcome = .created))) = 1 := by
  have hgood : goodReq "testsecret" "m1" ("t1", wReq) :=
    ⟨by decide, rfl, wRaw, wP, rfl, by decide, rfl⟩
  have hgood2 : ∀ r ∈ [("t2", wReq)], goodReq "testsecret" "m1" r := by
    intro r hr
    rw [List.mem_singleton.mp hr]
    exact ⟨by decide, rfl, wRaw, wP, rfl, by decide, rfl⟩
  obtain ⟨rp0, p0, hjb, hval, h1, h2, h3, h4⟩ :=
    webhook_idempotent "testsecret" "m1" [] ("t1", wReq) [("t2", wReq)]
      (by decide) hgood hgood2
  exact h1

/-! ## C4: what runs before the signature check -/

/-- Counterexample to C4 as stated: a request whose body is the single
byte `\x7b` (an unterminated JSON object) and which carries *no*
`X-Signature` header is answered 422 — FastAPI's handler attempts to
JSON-parse the raw body before the signature dependency runs — rather
than the claimed unconditional 401. -/
theorem unauth_not_always_401 :
    (handleWebhook "k" "t" [] ⟨none, strBytes "\x7b", none⟩).1.status = 422 ∧
    (handleWebhook "k" "t" [] ⟨none, strBytes "\x7b", none⟩).1.outcome =
      .parseError ∧
    ¬ (handleWebhook "k" "t" [] ⟨none, strBytes "\x7b", none⟩).1.status = 401 := by
  decide

/-- C4 amended: for a request whose raw body is empty or parses as JSON, a
missing or invalid signature is rejected with 401 before the payload ever
reaches the `WebhookPayload` validator and without touching the store;
however the raw body is JSON-deserialized *before* signature verification,
and a non-empty body that is not valid JSON yields 422 regardless of the
signature. -/
theorem unauth_rejected_before_validation (secret now : String)
    (store : List Message) (req : Request)
    (hbody : req.rawBody = [] ∨ req.jsonBody ≠ none)
    (hsig : req.xSignature ≠ some (hmacHex secret req.rawBody)) :
    handleWebhook secret now store req = (⟨401, .err, .unauthenticated⟩, store) ∧
    ∀ req2 : Request, req2.rawBody ≠ [] → req2.jsonBody = none →
      handleWebhook secret now store req2 = (⟨422, .err, .parseError⟩, store) := by
  constructor
  · have hguard : ¬(req.rawBody ≠ [] ∧ req.jsonBody = none) := by
      rcases hbody with hb | hb
      · exact fun hc => hc.1 hb
      · exact fun hc => hb hc.2
    simp only [handleWebhook]
    rw [if_neg hguard, verify_invalid secret req.xSignature req.rawBody hsig]
  · intro req2 h1 h2
    simp only [handleWebhook]
    rw [if_pos ⟨h1, h2⟩]

/-- Witness for C4 amended: an unsigned request with an empty body is
answered 401. -/
theorem unauth_rejected_before_validation_witness :
    handleWebhook "k" "t" [] ⟨none, [], none⟩ =
      (⟨401, .err, .unauthenticated⟩, []) :=
  (unauth_rejected_before_validation "k" "t" [] ⟨none, [], none⟩
    (Or.inl rfl) (by simp)).1

/-! ## C5: the payload validator -/

/-- Declarative reading of what `E164_PATTERN.match` accepts: a `+`, a
digit `1`-`9`, then 1 to 14 further Unicode decimal digits (Python's
`\d`) — optionally followed by one trailing newline, which Python's `$`
anchor tolerates. -/
def e164Spec (v : String) : Prop :=
  ∃ c ds, '1' ≤ c ∧ c ≤ '9' ∧ 1 ≤ List.length ds ∧ List.length ds ≤ 14 ∧
    (∀ d ∈ ds, pyDigit d = true) ∧
    (v.data = '+' :: c :: ds ∨ v.data = '+' :: c :: (ds ++ ['\n']))

theorem takeWhile_middle (p : Char → Bool) (l : List Char) (a : Char)
    (r : List Char) (hl : ∀ x ∈ l, p x = true) (ha : p a = false) :
    (l ++ a :: r).takeWhile p = l ∧ (l ++ a :: r).dropWhile p = a :: r := by
  induction l with
  | nil => simp [List.takeWhile_cons, List.dropWhile_cons, ha]
  | cons x t ih =>
      have hx := hl x (List.mem_cons_self x t)
      have iht := ih (fun y hy => hl y (List.mem_cons_of_mem x hy))
      simp only [List.cons_append, List.takeWhile_cons, List.dropWhile_cons, hx]
      simp only [if_true]
      exact ⟨by rw [iht.1], by rw [iht.2]⟩

theorem e164Match_iff (v : String) : e164Match v = true ↔ e164Spec v := by
  constructor
  · intro h
    unfold e164Match e164MatchL at h
    rcases hv : v.data with _ | ⟨c0, _ | ⟨c1, rest⟩⟩
    · rw [hv] at h; exact Bool.noConfusion h
    · rw [hv] at h; exact Bool.noConfusion h
    · rw [hv] at h
      simp only [Bool.and_eq_true, Bool.or_eq_true, decide_eq_true_eq] at h
      obtain ⟨⟨⟨hplus, h1⟩, h9⟩, ⟨hlen1, hlen14⟩, htail⟩ := h
      refine ⟨c1, rest.takeWhile pyDigit, h1, h9, hlen1, hlen14,
        fun d hd => List.mem_takeWhile_imp hd, ?_⟩
      have hsplit := List.takeWhile_append_dropWhile pyDigit rest
      rcases htail with ht | ht
      · left
        rw [hv, hplus]
        rw [ht, List.append_nil] at hsplit
        rw [hsplit]
      · right
        rw [hv, hplus]
        rw [ht] at hsplit
        rw [hsplit]
  · intro hspec
    obtain ⟨c, ds, h1, h9, hlen1, hlen14, hdig, hshape⟩ := hspec
    unfold e164Match e164MatchL
    rcases hshape with hs | hs
    · rw [hs]
      have htw : ds.takeWhile pyDigit = ds :=
        List.takeWhile_eq_self_iff.mpr hdig
      have hdw : ds.dropWhile pyDigit = [] :=
        List.dropWhile_eq_nil_iff.mpr hdig
      simp [htw, hdw, h1, h9, hlen1, hlen14]
    · rw [hs]
      have hmid := takeWhile_middle pyDigit ds '\n' [] hdig (by decide)
      simp [hmid.1, hmid.2, h1, h9, hlen1, hlen14]

/-- The E.164 pattern exactly as C5's words describe it: a leading `+`,
a digit `1`-`9`, then 1 to 14 more digits — nothing else, in particular no
trailing newline. -/
def e164StrictB (v : String) : Bool :=
  match v.data with
  | c0 :: c1 :: rest =>
      decide (c0 = '+') && decide ('1' ≤ c1) && decide (c1 ≤ '9') &&
      rest.all Char.isDigit && decide (1 ≤ rest.length) &&
      decide (rest.length ≤ 14)
  | _ => false

/-- Counterexample to C5 as stated: the validator accepts a body whose
`message_id` and `ts` are the empty string (no non-emptiness check exists
on either field) and whose `from` is the correct number followed by a
newline (accepted through Python's `$` semantics), all of which the claim
says must be rejected. -/
theorem validator_accepts_claimed_rejects :
    (validatePayload ⟨some "", some "+14155552671\n", some "+14155552672",
        some "", none⟩).isSome = true ∧
    ("" : String).length = 0 ∧
    e164StrictB "+14155552671\n" = false := by
  decide

/-- C5 amended: the validator accepts a decoded body iff `message_id` and
`ts` are present (possibly empty — no minimum length is enforced), `from`
and `to` are present and match the E.164 pattern under Python `re`
semantics (`\d` accepting any Unicode decimal digit and `$` tolerating
one trailing newline), and `text`, when present, has length at most 4096;
and a signed request whose body fails validation is answered 422
`ValidationError` with the store untouched. -/
theorem validate_iff (rp : RawPayload) :
    ((∃ p, validatePayload rp = some p) ↔
      ((∃ mid, rp.message_id = some mid) ∧
       (∃ f, rp.from_msisdn = some f ∧ e164Spec f) ∧
       (∃ t, rp.to_msisdn = some t ∧ e164Spec t) ∧
       (∃ ts, rp.ts = some ts) ∧
       (∀ tx, rp.text = some tx → tx.length ≤ 4096))) ∧
    (∀ (secret now : String) (store : List Message) (req : Request),
       req.rawBody ≠ [] → req.jsonBody = some rp →
       req.xSignature = some (hmacHex secret req.rawBody) →
       validatePayload rp = none →
       handleWebhook secret now store req =
         (⟨422, .err, .validationError⟩, store)) := by
  constructor
  · rcases rp with ⟨mid, f, t, ts, tx⟩
    cases mid <;> cases f <;> cases t <;> cases ts <;> cases tx <;>
      simp [validatePayload, e164Match_iff, and_assoc]
  · intro secret now store req hne hjb hsig hnone
    unfold handleWebhook
    rw [if_neg (fun hc => by rw [hjb] at hc; exact Option.noConfusion hc.2)]
    rw [hsig, verify_valid]
    rw [if_neg hne, hjb, Option.getD_some, hnone]

/-- Witness for C5: `wRaw` satisfies the amended conditions and is
accepted. -/
theorem validate_iff_witness : ∃ p, validatePayload wRaw = some p :=
  (validate_iff wRaw).1.mpr
    ⟨⟨"m1", rfl⟩,
     ⟨"+14155552671", rfl, '1', "4155552671".data, by decide, by decide,
       by decide, by decide, by decide, Or.inl (by decide)⟩,
     ⟨"+14155552672", rfl, '1', "4155552672".data, by decide, by decide,
       by decide, by decide, by decide, Or.inl (by decide)⟩,
     ⟨"2025-01-01T00:00:00Z", rfl⟩,
     fun tx htx => by
       have h2 : some "hi" = some tx := htx
       injection h2 with h
       rw [← h]
       decide⟩

/-! ## C8: the scalar aggregates of /stats -/

theorem sorted_head_spec (r : String → String → Prop) [DecidableRel r]
    [IsTotal String r] [IsTrans String r] [IsRefl String r]
    (tss : List String) :
    ((tss.insertionSort r).head? = none ↔ tss = []) ∧
    (∀ x, (tss.insertionSort r).head? = some x →
      x ∈ tss ∧ ∀ y ∈ tss, r x y) := by
  have hp := List.perm_insertionSort r tss
  have hs := List.sorted_insertionSort r tss
  constructor
  · rw [List.head?_eq_none_iff]
    constructor
    · intro h
      rw [h] at hp
      exact hp.symm.eq_nil
    · intro h
      subst h
      rfl
  · intro x hx
    rcases hsort : tss.insertionSort r with _ | ⟨a, t⟩
    · rw [hsort] at hx
      exact Option.noConfusion hx
    · rw [hsort, List.head?_cons] at hx
      injection hx with hax
      subst hax
      rw [hsort] at hp hs
      rw [List.sorted_cons] at hs
      constructor
      · exact hp.subset (List.mem_cons_self a t)
      · intro y hy
        rcases List.mem_cons.mp (hp.symm.subset hy) with h | h
        · rw [h]
          exact refl_of r a
        · exact hs.1 y h

/-- C8: `/stats` reports `total_messages` as the row count, `senders_count`
as the number of distinct `from_msisdn` values, `first_message_ts` as the
minimum and `last_message_ts` as the maximum of the stored `ts` strings
(string order); on the empty store both counts are 0 and both timestamps
are `None`. -/
theorem stats_scalars_spec (store : List Message) :
    (get_stats_scalars store).total_messages = store.length ∧
    (get_stats_scalars store).senders_count =
      (store.map (·.from_msisdn)).toFinset.card ∧
    ((get_stats_scalars store).first_message_ts = none ↔ store = []) ∧
    ((get_stats_scalars store).last_message_ts = none ↔ store = []) ∧
    (∀ x, (get_stats_scalars store).first_message_ts = some x →
      x ∈ store.map (·.ts) ∧ ∀ y ∈ store.map (·.ts), strLe x y) ∧
    (∀ x, (get_stats_scalars store).last_message_ts = some x →
      x ∈ store.map (·.ts) ∧ ∀ y ∈ store.map (·.ts), strLe y x) ∧
    get_stats_scalars [] = ⟨0, 0, none, none⟩ := by
  have hfst := sorted_head_spec strLe (store.map (·.ts))
  have hlst := sorted_head_spec (fun a b => strLe b a) (store.map (·.ts))
  have hmapnil : store.map (·.ts) = [] ↔ store = [] := List.map_eq_nil_iff
  refine ⟨rfl, ?_, ?_, ?_, ?_, ?_, rfl⟩
  · show (distinctSenders store).length = _
    unfold distinctSenders
    exact (List.card_toFinset _).symm
  · exact hfst.1.trans hmapnil
  · exact hlst.1.trans hmapnil
  · exact hfst.2
  · exact hlst.2

/-- Witness for C8: on a concrete two-row store the reported first
timestamp is a stored `ts` value and is a lower bound of all of them. -/
theorem stats_scalars_spec_witness :
    "2025-01-01T00:00:00Z" ∈
      [wMsg, mkMessage wPayload "c2"].map (·.ts) ∧
    ∀ y ∈ [wMsg, mkMessage wPayload "c2"].map (·.ts),
      strLe "2025-01-01T00:00:00Z" y :=
  (stats_scalars_spec [wMsg, mkMessage wPayload "c2"]).2.2.2.2.1
    "2025-01-01T00:00:00Z" (by decide)

/-! ## C7: the top-senders list -/

/-- First row for the C7 counterexample: one message from one sender. -/
def s1 : Message := ⟨"a1", "+15550000001", "+15550000003", "t1", none, "c1"⟩

/-- Second row for the C7 counterexample: one message from another sender. -/
def s2 : Message := ⟨"a2", "+15550000002", "+15550000003", "t2", none, "c2"⟩

/-- Counterexample to C7 as stated: on a store with two equal-count senders
the `ORDER BY COUNT(...) DESC LIMIT 10` query (no secondary sort key)
admits two different result orders, so no deterministic tie-break —
by sender value or otherwise — is guaranteed, and repeated calls are not
guaranteed to return the same list. -/
theorem top_senders_not_deterministic :
    topSendersAdmissible [s1, s2] [("+15550000001", 1), ("+15550000002", 1)] ∧
    topSendersAdmissible [s1, s2] [("+15550000002", 1), ("+15550000001", 1)] ∧
    ([("+15550000001", 1), ("+15550000002", 1)] : List (String × Nat)) ≠
      [("+15550000002", 1), ("+15550000001", 1)] := by
  refine ⟨⟨[("+15550000001", 1), ("+15550000002", 1)], by decide, by decide, rfl⟩,
    ⟨[("+15550000002", 1), ("+15550000001", 1)], by decide, by decide, rfl⟩,
    by decide⟩

/-- C7 amended: any admissible `messages_per_sender` result consists of
group rows of the store, is sorted by descending count, has
`min 10 (number of senders)` entries, and every excluded sender's count is
at most every included one's; the order among equal counts, however, is
not determined. -/
theorem top_senders_spec (store : List Message) (r : List (String × Nat))
    (h : topSendersAdmissible store r) :
    List.Sorted (fun a b => b.2 ≤ a.2) r ∧
    r.length = min 10 (senderCounts store).length ∧
    (∀ p ∈ r, p ∈ senderCounts store) ∧
    (∀ p ∈ r, ∀ s ∈ senderCounts store, s ∉ r → s.2 ≤ p.2) := by
  obtain ⟨full, hperm, hsort, hr⟩ := h
  subst hr
  refine ⟨?_, ?_, ?_, ?_⟩
  · exact hsort.sublist (List.take_sublist 10 full)
  · rw [List.length_take, hperm.length_eq]
  · intro p hp
    exact hperm.subset (List.mem_of_mem_take hp)
  · intro p hp s hs hsnot
    have hsfull : s ∈ full := hperm.symm.subset hs
    have hsplit : full.take 10 ++ full.drop 10 = full := List.take_append_drop 10 full
    have hsdrop : s ∈ full.drop 10 := by
      rcases List.mem_append.mp (by rw [hsplit]; exact hsfull) with h1 | h1
      · exact absurd h1 hsnot
      · exact h1
    have hpw := hsort
    rw [← hsplit] at hpw
    exact (List.pairwise_append.mp hpw).2.2 p hp s hsdrop

/-- Witness for C7 at a one-sender store. -/
theorem top_senders_spec_witness :
    List.Sorted (fun (a b : String × Nat) => b.2 ≤ a.2) [("+15550000001", 1)] :=
  (top_senders_spec [s1] [("+15550000001", 1)]
    ⟨[("+15550000001", 1)], by decide, by decide, rfl⟩).1

/-! ## C6: the filtered, ordered, paginated query -/

instance : IsTotal Message keyLe := ⟨fun a b => by
  unfold keyLe
  by_cases h : a.ts = b.ts
  · rcases strLe_total a.message_id b.message_id with h2 | h2
    · exact Or.inl (Or.inl ⟨h, h2⟩)
    · exact Or.inr (Or.inl ⟨h.symm, h2⟩)
  · rcases strLe_total a.ts b.ts with h2 | h2
    · exact Or.inl (Or.inr ⟨h, h2⟩)
    · exact Or.inr (Or.inr ⟨fun he => h he.symm, h2⟩)⟩

instance : IsTrans Message keyLe := ⟨fun a b c hab hbc => by
  unfold keyLe at hab hbc ⊢
  rcases hab with ⟨he1, hm1⟩ | ⟨hn1, ht1⟩
  · rcases hbc with ⟨he2, hm2⟩ | ⟨hn2, ht2⟩
    · exact Or.inl ⟨he1.trans he2, strLe_trans hm1 hm2⟩
    · exact Or.inr ⟨by rw [he1]; exact hn2, by rw [he1]; exact ht2⟩
  · rcases hbc with ⟨he2, hm2⟩ | ⟨hn2, ht2⟩
    · exact Or.inr ⟨by rw [← he2]; exact hn1, by rw [← he2]; exact ht1⟩
    · refine Or.inr ⟨?_, strLe_trans ht1 ht2⟩
      intro he
      exact hn1 (strLe_antisymm ht1 (by rw [he]; exact ht2))⟩

/-- Two equal keys force equal `message_id`s. -/
theorem keyLe_antisymm_id {a b : Message} (h1 : keyLe a b) (h2 : keyLe b a) :
    a.message_id = b.message_id := by
  unfold keyLe at h1 h2
  rcases h1 with ⟨he1, hm1⟩ | ⟨hn1, ht1⟩
  · rcases h2 with ⟨he2, hm2⟩ | ⟨hn2, ht2⟩
    · exact strLe_antisymm hm1 hm2
    · exact absurd he1.symm hn2
  · rcases h2 with ⟨he2, hm2⟩ | ⟨hn2, ht2⟩
    · exact absurd he2.symm hn1
    · exact absurd (strLe_antisymm ht1 ht2) hn1

/-- A list with pairwise-distinct `message_id`s has a unique sorted
arrangement: the `ORDER BY ts, message_id` output is well defined on
primary-key-respecting stores. -/
theorem sorted_perm_eq : ∀ (l1 l2 : List Message), l1.Perm l2 →
    List.Sorted keyLe l1 → List.Sorted keyLe l2 → (idsOf l1).Nodup →
    l1 = l2 := by
  intro l1
  induction l1 with
  | nil =>
      intro l2 hp _ _ _
      exact (hp.symm.eq_nil).symm
  | cons a t ih =>
      intro l2 hp hs1 hs2 hnd
      cases l2 with
      | nil =>
          have := hp.eq_nil
          exact absurd this (by simp)
      | cons b u =>
          have hab : a = b := by
            have hbmem : b ∈ a :: t := hp.symm.subset (List.mem_cons_self b u)
            have hamem : a ∈ b :: u := hp.subset (List.mem_cons_self a t)
            rw [List.sorted_cons] at hs1 hs2
            rcases List.mem_cons.mp hbmem with h | h
            · exact h.symm
            · rcases List.mem_cons.mp hamem with h2 | h2
              · exact h2
              · have hid : a.message_id = b.message_id :=
                  keyLe_antisymm_id (hs1.1 b h) (hs2.1 a h2)
                unfold idsOf at hnd
                rw [List.map_cons, List.nodup_cons] at hnd
                exact absurd (by rw [hid]; exact List.mem_map_of_mem (·.message_id) h)
                  hnd.1
          subst hab
          have htu : t.Perm u := (List.perm_cons a).mp hp
          rw [List.sorted_cons] at hs1 hs2
          have hnd2 : (idsOf t).Nodup := by
            unfold idsOf at hnd ⊢
            rw [List.map_cons, List.nodup_cons] at hnd
            exact hnd.2
          rw [ih u htu hs1.2 hs2.2 hnd2]

/-- The row predicate C6 amends to: exact sender match when `from` is
supplied non-empty (an empty string parameter is ignored by the handler's
truthiness test), `ts ≥ since` in the database's string order, and, when
`q` is supplied non-empty, a present `text` matching the unescaped
case-insensitive `LIKE` pattern `%q%` (`%`/`_` inside `q` act as
wildcards). -/
def specFilter (fromF since q : Option String) (m : Message) : Bool :=
  (match fromF with
   | some f => decide (f = "") || decide (m.from_msisdn = f)
   | none => true) &&
  (match since with
   | some sv => decide (strLe sv m.ts)
   | none => true) &&
  (match q with
   | some sv => decide (sv = "") || textIlike sv m.text
   | none => true)

theorem matchesAll_eq_spec (fromF since q : Option String) (m : Message) :
    matchesAll (whereFilters fromF since q) m = specFilter fromF since q m := by
  unfold matchesAll whereFilters specFilter pyTruthy
  rw [List.all_append, List.all_append]
  have h1 : ((if (match fromF with
        | none => false
        | some sv => decide (sv ≠ "")) = true then
          [fun m => decide (m.from_msisdn = fromF.getD "")] else []).all
        (fun f => f m)) =
      (match fromF with
       | some f => decide (f = "") || decide (m.from_msisdn = f)
       | none => true) := by
    cases fromF with
    | none => rfl
    | some f =>
        by_cases hf : f = ""
        · subst hf
          simp
        · simp [hf]
  have h2 : ((if (match since with
        | none => false
        | some sv => decide (sv ≠ "")) = true then
          [fun m => decide (strLe (since.getD "") m.ts)] else []).all
        (fun f => f m)) =
      (match since with
       | some sv => decide (strLe sv m.ts)
       | none => true) := by
    cases since with
    | none => rfl
    | some sv =>
        by_cases hs : sv = ""
        · subst hs
          simp [strLe, charListLeB]
        · simp [hs]
  have h3 : ((if (match q with
        | none => false
        | some sv => decide (sv ≠ "")) = true then
          [fun m => textIlike (q.getD "") m.text] else []).all
        (fun f => f m)) =
      (match q with
       | some sv => decide (sv = "") || textIlike sv m.text
       | none => true) := by
    cases q with
    | none => rfl
    | some sv =>
        by_cases hs : sv = ""
        · subst hs
          simp
        · simp [hs]
  rw [h1, h2, h3]

/-- Does `t` start with `q`? -/
def segStartsAt : List Char → List Char → Bool
  | [], _ => true
  | _ :: _, [] => false
  | a :: as, b :: bs => decide (a = b) && segStartsAt as bs

/-- Does `q` occur contiguously inside `t`? -/
def containsSeg : List Char → List Char → Bool
  | q, [] => decide (q = [])
  | q, b :: ts => segStartsAt q (b :: ts) || containsSeg q ts

/-- Case-insensitive substring containment — C6's literal reading of the
`q` filter. -/
def substrCI (q t : String) : Bool :=
  containsSeg (lowerStr q).data (lowerStr t).data

/-- The row used by the C6 counterexample; its text is `axb`. -/
def cm1 : Message :=
  ⟨"m1", "+14155552671", "+14155552672", "2025-01-01T00:00:00Z", some "axb",
   "2025-01-02T00:00:00Z"⟩

/-- Counterexample to C6 as stated: with `from` supplied as the empty
string and `q = "a_b"`, the endpoint returns `cm1` with `total = 1`, yet
`cm1` neither has the empty sender the `from` filter demands nor contains
`"a_b"` as a (case-insensitive) substring of its text — the empty `from`
parameter is ignored by the truthiness test, and the SQL `_` wildcard in
`q` matches the `x`. -/
theorem messages_filters_not_literal :
    (get_messages [cm1] 50 0 (some "") none (some "a_b")).2 = 1 ∧
    (get_messages [cm1] 50 0 (some "") none (some "a_b")).1 = [cm1] ∧
    ¬ cm1.from_msisdn = "" ∧
    substrCI "a_b" "axb" = false := by
  decide

/-- C6 amended: for every primary-key-respecting store state and
`limit ∈ [1,100]`, `offset ≥ 0`, the returned `total` counts exactly the
rows satisfying the (amended) filter predicate, the returned page is
sorted by `ts` then `message_id`, and it equals the window
`[offset, offset+limit)` of the unique sorted arrangement of the filtered
rows — `total` being independent of `limit` and `offset`. -/
theorem messages_query_spec (store : List Message) (lim off : Nat)
    (fromF since q : Option String) (hl1 : 1 ≤ lim) (hl2 : lim ≤ 100)
    (hids : (idsOf store).Nodup) :
    (get_messages store lim off fromF since q).2 =
      store.countP (specFilter fromF since q) ∧
    List.Sorted keyLe (get_messages store lim off fromF since q).1 ∧
    ∀ L, L.Perm (store.filter (specFilter fromF since q)) →
      List.Sorted keyLe L →
      (get_messages store lim off fromF since q).1 = (L.drop off).take lim := by
  have hfeq : ∀ m, matchesAll (whereFilters fromF since q) m =
      specFilter fromF since q m := matchesAll_eq_spec fromF since q
  have hsortIS := List.sorted_insertionSort keyLe
    (store.filter (matchesAll (whereFilters fromF since q)))
  refine ⟨?_, ?_, ?_⟩
  · show store.countP (matchesAll (whereFilters fromF since q)) = _
    exact List.countP_congr (fun m _ => by rw [hfeq m])
  · show List.Sorted keyLe
      ((((store.filter (matchesAll (whereFilters fromF since q))).insertionSort
          keyLe).drop off).take lim)
    exact hsortIS.sublist ((List.take_sublist _ _).trans (List.drop_sublist _ _))
  · intro L hperm hsortL
    have hfilter_eq : store.filter (matchesAll (whereFilters fromF since q)) =
        store.filter (specFilter fromF since q) :=
      List.filter_congr (fun m _ => hfeq m)
    have hpermIS : ((store.filter (matchesAll (whereFilters fromF since q))).insertionSort
        keyLe).Perm L := by
      refine (List.perm_insertionSort keyLe _).trans ?_
      rw [hfilter_eq]
      exact hperm.symm
    have hndIS : (idsOf ((store.filter (matchesAll (whereFilters fromF since q))).insertionSort
        keyLe)).Nodup := by
      have hndf : ((store.filter (matchesAll (whereFilters fromF since q))).map
          (·.message_id)).Nodup := by
        have hsub : List.Sublist
            ((store.filter (matchesAll (whereFilters fromF since q))).map (·.message_id))
            (store.map (·.message_id)) :=
          (List.filter_sublist store).map (·.message_id)
        exact hids.sublist hsub
      unfold idsOf
      exact ((List.perm_insertionSort keyLe _).map (·.message_id)).nodup_iff.mpr hndf
    have heqL : (store.filter (matchesAll (whereFilters fromF since q))).insertionSort
        keyLe = L :=
      sorted_perm_eq _ L hpermIS hsortIS hsortL hndIS
    show ((((store.filter (matchesAll (whereFilters fromF since q))).insertionSort
        keyLe).drop off).take lim) = (L.drop off).take lim
    rw [heqL]

/-- Second row of the C6 witness store: same `ts` as `wb`, smaller id. -/
def wa : Message :=
  ⟨"a", "+15550000001", "+15550000002", "2025-01-01T00:00:00Z", some "hi", "c2"⟩

/-- First row of the C6 witness store. -/
def wb : Message :=
  ⟨"b", "+15550000001", "+15550000002", "2025-01-01T00:00:00Z", some "hi", "c1"⟩

/-- Witness for C6: on the spec's pagination-determinism example (two rows
inserted as `b`, `a` with one shared `ts`) the unfiltered query reports
the full count and returns the page `[a, b]` — the `message_id`
tie-break. -/
theorem messages_query_spec_witness :
    (get_messages [wb, wa] 50 0 none none none).2 =
      [wb, wa].countP (specFilter none none none) ∧
    (get_messages [wb, wa] 50 0 none none none).1 = [wa, wb] := by
  have h := messages_query_spec [wb, wa] 50 0 none none none
    (by decide) (by decide) (by decide)
  refine ⟨h.1, ?_⟩
  have h2 := h.2.2 [wa, wb] (by decide) (by decide)
  rw [h2]
  decide

end Webhook
